import Mathlib

/-!
Verification development for the SVG-to-toolpath converter's traversal engine
(`src/lib/src/converter/visit.rs`).

The document tree, the visitor (`visit_enter`/`visit_exit`) and the driver
(`depth_first_visit`) are embedded shallowly.  External collaborators of the
core — the unit resolver (`length_attr_to_user_units`), the viewport transform
helper (`get_viewport_transform`), the `svgtypes` tokenizers (`ViewBox`,
`PointsParser`, `PathParser`, `TransformListParser`) and the node-label helper
(`node_name`) — are fields of an `Env` record, universally quantified in the
theorems.  Scalars are modelled as `ℚ`.  The recursive walk takes explicit
fuel (the source recursion is unbounded in the presence of reference cycles);
theorems about a "full traversal" are conditional on the walk returning.
-/

namespace SvgVisit

/-- Affine 2D transform, embedding `euclid::default::Transform2D` (row-vector
convention: a point `p` maps to `[p.1, p.2, 1] * M`). -/
structure Transform2D where
  m11 : ℚ
  m12 : ℚ
  m21 : ℚ
  m22 : ℚ
  m31 : ℚ
  m32 : ℚ
deriving DecidableEq

/-- Embeds `Transform2D::identity`. -/
def Transform2D.identity : Transform2D := ⟨1, 0, 0, 1, 0, 0⟩

/-- Embeds `Transform2D::translation(x, y)`. -/
def Transform2D.translation (x y : ℚ) : Transform2D := ⟨1, 0, 0, 1, x, y⟩

/-- Embeds euclid's `a.then(&b)`: the transform applying `a` first, then `b`
(matrix product `a * b` in the row-vector convention). -/
def Transform2D.andThen (a b : Transform2D) : Transform2D :=
  ⟨a.m11 * b.m11 + a.m12 * b.m21,
   a.m11 * b.m12 + a.m12 * b.m22,
   a.m21 * b.m11 + a.m22 * b.m21,
   a.m21 * b.m12 + a.m22 * b.m22,
   a.m31 * b.m11 + a.m32 * b.m21 + b.m31,
   a.m31 * b.m12 + a.m32 * b.m22 + b.m32⟩

/-- Embeds `Transform2D::transform_point`. -/
def Transform2D.transformPoint (t : Transform2D) (p : ℚ × ℚ) : ℚ × ℚ :=
  (p.1 * t.m11 + p.2 * t.m21 + t.m31, p.1 * t.m12 + p.2 * t.m22 + t.m32)

theorem andThen_transformPoint (a b : Transform2D) (p : ℚ × ℚ) :
    (a.andThen b).transformPoint p = b.transformPoint (a.transformPoint p) := by
  simp only [Transform2D.andThen, Transform2D.transformPoint, Prod.mk.injEq]
  exact ⟨by ring, by ring⟩

theorem identity_transformPoint (p : ℚ × ℚ) :
    Transform2D.identity.transformPoint p = p := by
  simp only [Transform2D.identity, Transform2D.transformPoint]
  cases p with
  | mk a b => simp

/-- Embeds `svgtypes::PathSegment` (only the constructors the converter
produces). -/
inductive PathSegment where
  | moveTo (abs : Bool) (x y : ℚ)
  | lineTo (abs : Bool) (x y : ℚ)
  | horizontalLineTo (abs : Bool) (x : ℚ)
  | verticalLineTo (abs : Bool) (y : ℚ)
  | ellipticalArc (abs : Bool) (rx ry xAxisRotation : ℚ) (largeArc sweep : Bool) (x y : ℚ)
  | closePath (abs : Bool)
deriving DecidableEq

/-- Embeds `svgtypes::ViewBox` (fields `x, y, w, h`). -/
structure ViewBox where
  x : ℚ
  y : ℚ
  w : ℚ
  h : ℚ
deriving DecidableEq

/-- Embeds a `roxmltree` node: an element with tag name, attributes (the
namespaced `xlink:href` alias is stored under the literal key `"xlink:href"`,
so a plain `"href"` lookup does not see it, as in `roxmltree`), and children;
or a non-element node. -/
inductive XmlNode where
  | element (tag : String) (attrs : List (String × String)) (children : List XmlNode)
  | text (content : String)

/-- Embeds `node.tag_name().name()` (empty for non-elements). -/
def XmlNode.tagName : XmlNode → String
  | .element t _ _ => t
  | .text _ => ""

/-- Embeds `node.is_element()`. -/
def XmlNode.isElement : XmlNode → Bool
  | .element _ _ _ => true
  | .text _ => false

/-- Embeds `node.children()`. -/
def XmlNode.children : XmlNode → List XmlNode
  | .element _ _ c => c
  | .text _ => []

/-- Embeds `node.attribute(name)` (first attribute with that exact name). -/
def XmlNode.attr : XmlNode → String → Option String
  | .element _ attrs _, name => (attrs.find? (fun kv => kv.1 == name)).map (fun kv => kv.2)
  | .text _, _ => none

/-- Substring test on character lists, embedding Rust's `str::contains`. -/
def subList (pat : List Char) : List Char → Bool
  | [] => pat.isEmpty
  | c :: t => pat.isPrefixOf (c :: t) || subList pat t

/-- Embeds `style.contains("display:none")`-style substring containment. -/
def strContains (s pat : String) : Bool := subList pat.data s.data

/-- Embeds the hidden-style check
`node.attribute("style").is_some_and(|style| style.contains("display:none"))`. -/
def isHiddenStyle (n : XmlNode) : Bool :=
  match n.attr "style" with
  | some st => strContains st "display:none"
  | none => false

/-- Embeds `should_render_node`: element, not hidden, and not one of the
non-directly-rendered containers (`defs`, `marker`, `symbol`). -/
def shouldRenderNode (n : XmlNode) : Bool :=
  n.isElement && !(isHiddenStyle n) &&
    !(n.tagName == "defs" || n.tagName == "marker" || n.tagName == "symbol")

/-- Embeds `href.strip_prefix('#')`. -/
def dropHash (s : String) : Option String :=
  match s.data with
  | '#' :: rest => some (String.mk rest)
  | _ => none

/-- Embeds `doc.root().descendants().find(|n| n.attribute("id") == Some(id))`:
first node in document (pre-)order whose `id` attribute equals the fragment.
The extra fuel argument makes the recursion structural; it is irrelevant once
it exceeds the number of document nodes. -/
def findByIdFuel : Nat → List XmlNode → String → Option XmlNode
  | 0, _, _ => none
  | _ + 1, [], _ => none
  | fuel + 1, n :: rest, i =>
    if n.attr "id" = some i then some n
    else
      match findByIdFuel fuel n.children i with
      | some m => some m
      | none => findByIdFuel fuel rest i

/-- Embeds `resolve_use_href`: `href` or `xlink:href`, stripped of a leading
`#`, looked up as an `id` in document order. -/
def resolveUseHref (fuel : Nat) (doc : List XmlNode) (n : XmlNode) : Option XmlNode :=
  match (match n.attr "href" with
         | some h => some h
         | none => n.attr "xlink:href") with
  | none => none
  | some href =>
    match dropHash href with
    | none => none
    | some i => findByIdFuel fuel doc i

/-- Observable steps of a traversal: visitor enter/exit, pushes and pops of
the three stacks, a segment sequence handed to `apply_path`, and diagnostics
(`warn!` / `debug!`). -/
inductive Event where
  | enter (tag : String)
  | exit (tag : String)
  | pushT (t : Transform2D)
  | popT
  | pushName (s : String)
  | popName
  | pushVp (wh : ℚ × ℚ)
  | popVp
  | draw (segs : List PathSegment)
  | warn
  | info
deriving DecidableEq

/-- The `ConversionVisitor`'s mutable stacks. -/
structure VState where
  transformStack : List Transform2D
  nameStack : List String
  viewportDimStack : List (ℚ × ℚ)
deriving DecidableEq

/-- External collaborators of the traversal core, kept abstract: the unit
resolver (which may consult the viewport-dimension stack), the caller-supplied
output-dimension overrides (already resolved to user units), and the external
parsers and helpers.  The `preserveAspectRatio` attribute is passed through
unparsed. -/
structure Env where
  resolveLen : List (ℚ × ℚ) → XmlNode → String → Option ℚ
  dimensionsOverride : Option ℚ × Option ℚ
  parseViewBox : String → ViewBox
  viewportTransform : ViewBox → Option String → ℚ × ℚ → Option ℚ × Option ℚ → Transform2D
  parsePoints : String → List (ℚ × ℚ)
  parsePathSegs : String → List PathSegment
  parseTransformList : String → List Transform2D
  nodeName : XmlNode → String

/-- Embeds the own-transform fold:
`fold(Transform2D::identity(), |acc, t| t.then(&acc))`. -/
def flattenTransformList (l : List Transform2D) : Transform2D :=
  l.foldl (fun acc t => t.andThen acc) Transform2D.identity

/-- Embeds step 1 of `visit_enter`: the element's own `transform` attribute,
parsed and folded, or the identity when absent. -/
def ownTransform (env : Env) (n : XmlNode) : Transform2D :=
  match n.attr "transform" with
  | some s => flattenTransformList (env.parseTransformList s)
  | none => Transform2D.identity

/-- Embeds the `viewBox` attribute parse plus the non-positive-dimension
filter (which emits a warning and treats the box as absent). -/
def viewBoxOf (env : Env) (n : XmlNode) : Option ViewBox × List Event :=
  match n.attr "viewBox" with
  | none => (none, [])
  | some s =>
    let vb := env.parseViewBox s
    if vb.w ≤ 0 ∨ vb.h ≤ 0 then (none, [Event.warn]) else (some vb, [])

/-- Embeds `override_dim.or(*original_dim)`. -/
def orOpt (a b : Option ℚ) : Option ℚ :=
  match a with
  | some v => some v
  | none => b

/-- Embeds the svg element's width/height resolution with the caller's
per-axis overrides applied (`*original_dim = override_dim.or(*original_dim)`). -/
def svgViewportRaw (env : Env) (vps : List (ℚ × ℚ)) (n : XmlNode) : Option ℚ × Option ℚ :=
  (orOpt env.dimensionsOverride.1 (env.resolveLen vps n "width"),
   orOpt env.dimensionsOverride.2 (env.resolveLen vps n "height"))

/-- Embeds the `intrinsic_aspect_ratio` match. -/
def aspectRatioOf (vb : Option ViewBox) (vs : Option ℚ × Option ℚ) : Option ℚ :=
  match vb, vs with
  | none, (some w, some h) => some (w / h)
  | some b, _ => some (b.w / b.h)
  | none, _ => none

/-- Embeds the `viewport_size` derivation match of the svg arm.  The two arms
marked `unreachable!` in the source are mapped to `(0, 0)`;
`c10_unreachable_arm` shows they are never selected for the ratio the source
actually computes. -/
def rootViewportSize (vs : Option ℚ × Option ℚ) (ratio : Option ℚ) (vb : Option ViewBox) :
    ℚ × ℚ :=
  match vs, ratio, vb with
  | (some w, some h), _, _ => (w, h)
  | (some w, none), some r, _ => (w, w / r)
  | (none, some h), some r, _ => (h * r, h)
  | (none, none), _, some b => (b.w, b.h)
  | (some d, none), none, none => (d, d)
  | (none, some d), none, none => (d, d)
  | (none, none), _, none => (1, 1)
  | (some _, none), none, some _ => (0, 0)
  | (none, some _), none, some _ => (0, 0)

/-- The pattern of the match arm marked `unreachable!` in the source (exactly
one of width/height known, no intrinsic ratio, a view box present). -/
def sizingUnreachable (vs : Option ℚ × Option ℚ) (ratio : Option ℚ) (vb : Option ViewBox) :
    Bool :=
  (match vs with
   | (some _, none) => true
   | (none, some _) => true
   | _ => false) && ratio.isNone && vb.isSome

/-- The svg arm's resolved viewport size in user units. -/
def svgResolvedSize (env : Env) (vps : List (ℚ × ℚ)) (n : XmlNode) : ℚ × ℚ :=
  rootViewportSize (svgViewportRaw env vps n)
    (aspectRatioOf (viewBoxOf env n).1 (svgViewportRaw env vps n)) (viewBoxOf env n).1

/-- The svg arm's viewport position (`x`/`y` attributes). -/
def svgPos (env : Env) (vps : List (ℚ × ℚ)) (n : XmlNode) : Option ℚ × Option ℚ :=
  (env.resolveLen vps n "x", env.resolveLen vps n "y")

/-- The value pushed on the viewport-dimension stack by the svg arm: the view
box extents when a box exists, else the resolved element size. -/
def svgVpPushOf (env : Env) (vps : List (ℚ × ℚ)) (n : XmlNode) : ℚ × ℚ :=
  match (viewBoxOf env n).1 with
  | some b => (b.w, b.h)
  | none => svgResolvedSize env vps n

/-- The svg arm's flattened transform before the final Y-axis flip: own
transform, then the viewport transform when a box exists. -/
def svgNoFlip (env : Env) (vps : List (ℚ × ℚ)) (n : XmlNode) : Transform2D :=
  match (viewBoxOf env n).1 with
  | some b =>
    (ownTransform env n).andThen
      (env.viewportTransform b (n.attr "preserveAspectRatio") (svgResolvedSize env vps n)
        (svgPos env vps n))
  | none => ownTransform env n

/-- The Y-axis flip appended by the svg arm:
`Transform2D::translation(0., -(viewport_size[1] + viewport_pos[1].unwrap_or(0.)))`. -/
def svgFlipOf (env : Env) (vps : List (ℚ × ℚ)) (n : XmlNode) : Transform2D :=
  Transform2D.translation 0 (-((svgResolvedSize env vps n).2 + ((svgPos env vps n).2).getD 0))

/-- Embeds the symbol arm's viewport-size match: own width/height, else view
box dims, else parent viewport (`last().unwrap_or(&[1., 1.])`). -/
def symbolViewportOf (env : Env) (vps : List (ℚ × ℚ)) (n : XmlNode) : ℚ × ℚ :=
  match env.resolveLen vps n "width", env.resolveLen vps n "height", (viewBoxOf env n).1 with
  | some w, some h, _ => (w, h)
  | _, _, some b => (b.w, b.h)
  | _, _, none => vps.head?.getD (1, 1)

/-- The symbol arm's flattened transform (no Y-axis flip). -/
def symbolTransformOf (env : Env) (vps : List (ℚ × ℚ)) (n : XmlNode) : Transform2D :=
  match (viewBoxOf env n).1 with
  | some b =>
    (ownTransform env n).andThen
      (env.viewportTransform b (n.attr "preserveAspectRatio") (symbolViewportOf env vps n)
        (none, none))
  | none => ownTransform env n

/-- The use arm's flattened transform: own transform, then the translation by
the `x`/`y` attributes (default 0 each). -/
def useTransformOf (env : Env) (vps : List (ℚ × ℚ)) (n : XmlNode) : Transform2D :=
  (ownTransform env n).andThen
    (Transform2D.translation ((env.resolveLen vps n "x").getD 0)
      ((env.resolveLen vps n "y").getD 0))

/-- Result of the coordinate-resolution part of `visit_enter`: the flattened
transform, the optional viewport-dimension push, and the diagnostics emitted
while resolving. -/
structure EnterBranch where
  t : Transform2D
  vpPush : Option (ℚ × ℚ)
  evs : List Event

/-- Embeds the tag dispatch of the coordinate resolution in `visit_enter`:
svg arm (viewport establishment plus Y-axis flip), use arm (reference
offset), symbol arm (viewport establishment without flip), and the
view-box-on-other-element warning. -/
def enterTransformB (env : Env) (vps : List (ℚ × ℚ)) (n : XmlNode) : EnterBranch :=
  if n.tagName == "svg" then
    { t := (svgNoFlip env vps n).andThen (svgFlipOf env vps n),
      vpPush := some (svgVpPushOf env vps n),
      evs := (viewBoxOf env n).2 }
  else if n.tagName == "use" then
    { t := useTransformOf env vps n, vpPush := none, evs := [] }
  else if n.tagName == "symbol" then
    { t := symbolTransformOf env vps n,
      vpPush := some (symbolViewportOf env vps n),
      evs := (viewBoxOf env n).2 }
  else
    { t := ownTransform env n, vpPush := none,
      evs := if (n.attr "viewBox").isSome then [Event.warn] else [] }

/-- The flattened transform of `visit_enter` with the svg arm's Y-axis flip
omitted and every other arm spelled out unchanged; used to state which
elements receive the flip. -/
def enterTransformNoFlip (env : Env) (vps : List (ℚ × ℚ)) (n : XmlNode) : Transform2D :=
  if n.tagName == "svg" then svgNoFlip env vps n
  else if n.tagName == "use" then useTransformOf env vps n
  else if n.tagName == "symbol" then symbolTransformOf env vps n
  else ownTransform env n

/-- Embeds the rect arm's 10-segment sequence (before the no-radius filter). -/
def rectSegsFull (x y w h rx ry : ℚ) : List PathSegment :=
  [PathSegment.moveTo true (x + rx) y,
   PathSegment.horizontalLineTo true (x + w - rx),
   PathSegment.ellipticalArc true rx ry 0 false true (x + w) (y + ry),
   PathSegment.verticalLineTo true (y + h - ry),
   PathSegment.ellipticalArc true rx ry 0 false true (x + w - rx) (y + h),
   PathSegment.horizontalLineTo true (x + rx),
   PathSegment.ellipticalArc true rx ry 0 false true x (y + h - ry),
   PathSegment.verticalLineTo true (y + ry),
   PathSegment.ellipticalArc true rx ry 0 false true (x + rx) y,
   PathSegment.closePath true]

def isArcSeg : PathSegment → Bool
  | .ellipticalArc _ _ _ _ _ _ _ _ => true
  | _ => false

/-- Embeds the rect arm's
`.filter(|p| has_radius || !matches!(p, EllipticalArc { .. }))`. -/
def rectSegs (x y w h rx ry : ℚ) : List PathSegment :=
  let hasRadius : Bool := decide (0 < rx) && decide (0 < ry)
  (rectSegsFull x y w h rx ry).filter (fun p => hasRadius || !isArcSeg p)

/-- Embeds the circle/ellipse arm's move, four arcs and close. -/
def circleSegs (cx cy rx ry : ℚ) : List PathSegment :=
  [PathSegment.moveTo true (cx + rx) cy,
   PathSegment.ellipticalArc true rx ry 0 false true cx (cy + ry),
   PathSegment.ellipticalArc true rx ry 0 false true (cx - rx) cy,
   PathSegment.ellipticalArc true rx ry 0 false true cx (cy - ry),
   PathSegment.ellipticalArc true rx ry 0 false true (cx + rx) cy,
   PathSegment.closePath true]

/-- Embeds the polyline/polygon construction: the points iterator is
*peeked* (not consumed) for the move, so every point — including the first —
also yields a `LineTo`; a polygon appends a close. -/
def polySegs (closeIt : Bool) (pts : List (ℚ × ℚ)) : List PathSegment :=
  (match pts.head? with
   | some p => [PathSegment.moveTo true p.1 p.2]
   | none => []) ++
  pts.map (fun p => PathSegment.lineTo true p.1 p.2) ++
  (if closeIt then [PathSegment.closePath true] else [])

/-- Following the spec's words for the polyline/polygon table row: "move to
first point, line to each *subsequent* point; polygon additionally appends a
close segment".  Stated for comparison with the source's `polySegs`. -/
def specPolylineSegs (closeIt : Bool) (pts : List (ℚ × ℚ)) : List PathSegment :=
  (match pts with
   | [] => []
   | p :: rest =>
     PathSegment.moveTo true p.1 p.2 :: rest.map (fun q => PathSegment.lineTo true q.1 q.2)) ++
  (if closeIt then [PathSegment.closePath true] else [])

/-- Embeds the shape-lowering `match node.tag_name().name()` block of
`visit_enter`: each arm either hands one complete segment sequence to
`apply_path` (a single `draw` event) or emits a diagnostic and no geometry. -/
def shapeLower (env : Env) (vps : List (ℚ × ℚ)) (n : XmlNode) : List Event :=
  if n.tagName == "path" then
    match n.attr "d" with
    | some d => [Event.draw (env.parsePathSegs d)]
    | none => [Event.warn]
  else if n.tagName == "polyline" || n.tagName == "polygon" then
    match n.attr "points" with
    | some s => [Event.draw (polySegs (n.tagName == "polygon") (env.parsePoints s))]
    | none => [Event.warn]
  else if n.tagName == "rect" then
    match env.resolveLen vps n "width", env.resolveLen vps n "height" with
    | some w, some h =>
      [Event.draw
        (rectSegs ((env.resolveLen vps n "x").getD 0) ((env.resolveLen vps n "y").getD 0) w h
          ((env.resolveLen vps n "rx").getD 0) ((env.resolveLen vps n "ry").getD 0))]
    | _, _ => [Event.warn]
  else if n.tagName == "circle" || n.tagName == "ellipse" then
    if 0 < (env.resolveLen vps n "rx").getD ((env.resolveLen vps n "r").getD 0) ∧
        0 < (env.resolveLen vps n "ry").getD ((env.resolveLen vps n "r").getD 0) then
      [Event.draw (circleSegs ((env.resolveLen vps n "cx").getD 0)
        ((env.resolveLen vps n "cy").getD 0)
        ((env.resolveLen vps n "rx").getD ((env.resolveLen vps n "r").getD 0))
        ((env.resolveLen vps n "ry").getD ((env.resolveLen vps n "r").getD 0)))]
    else [Event.warn]
  else if n.tagName == "line" then
    match env.resolveLen vps n "x1", env.resolveLen vps n "y1",
        env.resolveLen vps n "x2", env.resolveLen vps n "y2" with
    | some x1, some y1, some x2, some y2 =>
      [Event.draw [PathSegment.moveTo true x1 y1, PathSegment.lineTo true x2 y2]]
    | _, _, _, _ => [Event.warn]
  else if n.tagName == "svg" || n.tagName == "g" || n.tagName == "use" ||
      n.tagName == "symbol" then []
  else [Event.info]

/-- The viewport-dimension stack after a node's `visit_enter` (pushed for
`svg`/`symbol`, unchanged otherwise). -/
def visitEnterVps (env : Env) (s : VState) (n : XmlNode) : List (ℚ × ℚ) :=
  match (enterTransformB env s.viewportDimStack n).vpPush with
  | some v => v :: s.viewportDimStack
  | none => s.viewportDimStack

/-- Embeds `visit_enter`: the clip-path and transform-origin warnings, the
coordinate resolution (with its viewport-dimension push), the transform push,
the shape lowering, and the name push — in source order. -/
def visitEnter (env : Env) (s : VState) (n : XmlNode) : VState × List Event :=
  (⟨(enterTransformB env s.viewportDimStack n).t :: s.transformStack,
    env.nodeName n :: s.nameStack, visitEnterVps env s n⟩,
   Event.enter n.tagName ::
     ((if n.tagName == "clipPath" then [Event.warn] else []) ++
      (if (n.attr "transform-origin").isSome then [Event.warn] else []) ++
      (enterTransformB env s.viewportDimStack n).evs ++
      (match (enterTransformB env s.viewportDimStack n).vpPush with
       | some v => [Event.pushVp v]
       | none => []) ++
      [Event.pushT (enterTransformB env s.viewportDimStack n).t] ++
      shapeLower env (visitEnterVps env s n) n ++
      [Event.pushName (env.nodeName n)]))

/-- Embeds `visit_exit`: pop the transform and the name unconditionally, and
the viewport dimensions exactly for `svg`/`symbol` elements. -/
def visitExit (s : VState) (n : XmlNode) : VState × List Event :=
  (⟨s.transformStack.tail, s.nameStack.tail,
    if n.tagName == "svg" || n.tagName == "symbol" then s.viewportDimStack.tail
    else s.viewportDimStack⟩,
   [Event.popT, Event.popName] ++
     (if n.tagName == "svg" || n.tagName == "symbol" then [Event.popVp] else []) ++
     [Event.exit n.tagName])

/-- The three mutually recursive walks of `depth_first_visit`: `one` is
`visit_node`, `ref` is `visit_use_referenced_node` (the relaxed walker), and
`many` is a `for_each` over a child list with the strict walker. -/
inductive VisitTask where
  | one (n : XmlNode)
  | ref (n : XmlNode)
  | many (ns : List XmlNode)

/-- Embeds `visit_node` / `visit_use_referenced_node` / the children loops of
`depth_first_visit`, with explicit fuel (`none` = fuel exhausted; the source
recursion is unbounded on reference cycles).  Returns the final stacks and
the emitted event trace. -/
def runVisit (env : Env) (doc : List XmlNode) :
    Nat → VisitTask → VState → Option (VState × List Event)
  | 0, _, _ => none
  | fuel + 1, .one n, s =>
    if shouldRenderNode n then
      match runVisit env doc fuel
          (if n.tagName == "use" then
            match resolveUseHref (fuel + 1) doc n with
            | some m => VisitTask.ref m
            | none => VisitTask.many n.children
          else VisitTask.many n.children) (visitEnter env s n).1 with
      | none => none
      | some (s2, e2) =>
        some ((visitExit s2 n).1, (visitEnter env s n).2 ++ e2 ++ (visitExit s2 n).2)
    else some (s, [])
  | fuel + 1, .ref n, s =>
    if n.isElement && !(isHiddenStyle n) then
      match runVisit env doc fuel (.many n.children) (visitEnter env s n).1 with
      | none => none
      | some (s2, e2) =>
        some ((visitExit s2 n).1, (visitEnter env s n).2 ++ e2 ++ (visitExit s2 n).2)
    else some (s, [])
  | _ + 1, .many [], s => some (s, [])
  | fuel + 1, .many (n :: rest), s =>
    (runVisit env doc fuel (.one n) s).bind (fun p1 =>
      (runVisit env doc fuel (.many rest) p1.1).bind (fun p2 =>
        some (p2.1, p1.2 ++ p2.2)))

/-- Embeds `depth_first_visit`: walk the root's children with the strict
walker, all stacks starting empty. -/
def depthFirstVisit (env : Env) (doc : List XmlNode) (fuel : Nat) :
    Option (VState × List Event) :=
  runVisit env doc fuel (.many doc) ⟨[], [], []⟩

/-! ### Event classification -/

def isPushT : Event → Bool
  | .pushT _ => true
  | _ => false

def isPopT : Event → Bool
  | .popT => true
  | _ => false

def isPushName : Event → Bool
  | .pushName _ => true
  | _ => false

def isPopName : Event → Bool
  | .popName => true
  | _ => false

def isPushVp : Event → Bool
  | .pushVp _ => true
  | _ => false

def isPopVp : Event → Bool
  | .popVp => true
  | _ => false

def isDrawE : Event → Bool
  | .draw _ => true
  | _ => false

/-- An `enter` of a viewport-establishing element (`svg` or `symbol`). -/
def isEnterEstablish : Event → Bool
  | .enter t => t == "svg" || t == "symbol"
  | _ => false

/-! ### Structural lemmas about the visitor -/

theorem viewBoxOf_evs (env : Env) (n : XmlNode) :
    ∀ e ∈ (viewBoxOf env n).2, e = Event.warn := by
  unfold viewBoxOf
  cases h : n.attr "viewBox" with
  | none => simp
  | some s =>
    dsimp only
    split <;> simp

theorem enterTransformB_evs (env : Env) (vps : List (ℚ × ℚ)) (n : XmlNode) :
    ∀ e ∈ (enterTransformB env vps n).evs, e = Event.warn := by
  unfold enterTransformB
  split
  · exact viewBoxOf_evs env n
  · split
    · simp
    · split
      · exact viewBoxOf_evs env n
      · split <;> simp

theorem shapeLower_shape (env : Env) (vps : List (ℚ × ℚ)) (n : XmlNode) :
    ∀ e ∈ shapeLower env vps n,
      (∃ l, e = Event.draw l) ∨ e = Event.warn ∨ e = Event.info := by
  unfold shapeLower
  intro e he
  repeat' split at he
  all_goals simp_all

theorem enterTransformB_vpPush (env : Env) (vps : List (ℚ × ℚ)) (n : XmlNode) :
    (enterTransformB env vps n).vpPush =
      if n.tagName == "svg" then some (svgVpPushOf env vps n)
      else if n.tagName == "symbol" then some (symbolViewportOf env vps n)
      else none := by
  unfold enterTransformB
  by_cases h1 : n.tagName = "svg"
  · simp [h1]
  · have h1' : (n.tagName == "svg") = false := by simp [h1]
    by_cases h2 : n.tagName = "use"
    · have h2' : (n.tagName == "symbol") = false := by simp [h2]
      simp [h1', h2, h2']
    · have h2' : (n.tagName == "use") = false := by simp [h2]
      by_cases h3 : n.tagName = "symbol"
      · simp [h1', h2', h3]
      · have h3' : (n.tagName == "symbol") = false := by simp [h3]
        simp [h1', h2', h3']

theorem enterTransformB_vpPush_isSome (env : Env) (vps : List (ℚ × ℚ)) (n : XmlNode) :
    (enterTransformB env vps n).vpPush.isSome = (n.tagName == "svg" || n.tagName == "symbol") := by
  rw [enterTransformB_vpPush]
  by_cases h1 : n.tagName = "svg" <;> by_cases h2 : n.tagName = "symbol" <;>
    simp [h1, h2]

theorem countP_all_warn (p : Event → Bool) (hw : p Event.warn = false) (l : List Event)
    (hl : ∀ e ∈ l, e = Event.warn) : List.countP p l = 0 := by
  refine List.countP_eq_zero.2 (fun e he => ?_)
  rw [hl e he, hw]
  simp

theorem countP_shapeLower (env : Env) (vps : List (ℚ × ℚ)) (n : XmlNode) (p : Event → Bool)
    (hwarn : p Event.warn = false) (hinfo : p Event.info = false)
    (hdraw : ∀ l, p (Event.draw l) = false) :
    List.countP p (shapeLower env vps n) = 0 := by
  refine List.countP_eq_zero.2 (fun e he => ?_)
  rcases shapeLower_shape env vps n e he with ⟨l, rfl⟩ | rfl | rfl <;>
    simp [hwarn, hinfo, hdraw]

theorem countP_visitEnter (env : Env) (s : VState) (n : XmlNode) (p : Event → Bool)
    (hwarn : p Event.warn = false) (hinfo : p Event.info = false)
    (hdraw : ∀ l, p (Event.draw l) = false) :
    List.countP p (visitEnter env s n).2 =
      (if p (Event.enter n.tagName) then 1 else 0) +
      (match (enterTransformB env s.viewportDimStack n).vpPush with
       | some v => if p (Event.pushVp v) then 1 else 0
       | none => 0) +
      (if p (Event.pushT (enterTransformB env s.viewportDimStack n).t) then 1 else 0) +
      (if p (Event.pushName (env.nodeName n)) then 1 else 0) := by
  have hevs := countP_all_warn p hwarn _ (enterTransformB_evs env s.viewportDimStack n)
  have hsh := countP_shapeLower env (visitEnterVps env s n) n p hwarn hinfo hdraw
  unfold visitEnter
  cases hvp : (enterTransformB env s.viewportDimStack n).vpPush with
  | none =>
    simp [List.countP_cons, List.countP_append, hevs, hsh, hwarn, hinfo,
      apply_ite (List.countP p)]
    try repeat' split
    all_goals omega
  | some v =>
    simp [List.countP_cons, List.countP_append, hevs, hsh, hwarn, hinfo,
      apply_ite (List.countP p)]
    try repeat' split
    all_goals omega

theorem countP_visitExit (s : VState) (n : XmlNode) (p : Event → Bool) :
    List.countP p (visitExit s n).2 =
      (if p Event.popT then 1 else 0) + (if p Event.popName then 1 else 0) +
      (if n.tagName == "svg" || n.tagName == "symbol" then (if p Event.popVp then 1 else 0)
        else 0) +
      (if p (Event.exit n.tagName) then 1 else 0) := by
  unfold visitExit
  split <;> simp only [List.countP_cons, List.countP_append, List.countP_nil] <;>
    repeat' split <;> omega

theorem cntPushT_enter (env : Env) (s : VState) (n : XmlNode) :
    List.countP isPushT (visitEnter env s n).2 = 1 := by
  rw [countP_visitEnter env s n isPushT rfl rfl (fun _ => rfl)]
  cases (enterTransformB env s.viewportDimStack n).vpPush <;> simp [isPushT]

theorem cntPopT_enter (env : Env) (s : VState) (n : XmlNode) :
    List.countP isPopT (visitEnter env s n).2 = 0 := by
  rw [countP_visitEnter env s n isPopT rfl rfl (fun _ => rfl)]
  cases (enterTransformB env s.viewportDimStack n).vpPush <;> simp [isPopT]

theorem cntPushName_enter (env : Env) (s : VState) (n : XmlNode) :
    List.countP isPushName (visitEnter env s n).2 = 1 := by
  rw [countP_visitEnter env s n isPushName rfl rfl (fun _ => rfl)]
  cases (enterTransformB env s.viewportDimStack n).vpPush <;> simp [isPushName]

theorem cntPopName_enter (env : Env) (s : VState) (n : XmlNode) :
    List.countP isPopName (visitEnter env s n).2 = 0 := by
  rw [countP_visitEnter env s n isPopName rfl rfl (fun _ => rfl)]
  cases (enterTransformB env s.viewportDimStack n).vpPush <;> simp [isPopName]

theorem cntPushVp_enter (env : Env) (s : VState) (n : XmlNode) :
    List.countP isPushVp (visitEnter env s n).2 =
      (if n.tagName == "svg" || n.tagName == "symbol" then 1 else 0) := by
  rw [countP_visitEnter env s n isPushVp rfl rfl (fun _ => rfl)]
  have h := enterTransformB_vpPush_isSome env s.viewportDimStack n
  cases hvp : (enterTransformB env s.viewportDimStack n).vpPush with
  | some v =>
    have hest : (n.tagName == "svg" || n.tagName == "symbol") = true := by
      rw [← h, hvp]; rfl
    simp [isPushVp, hest]
  | none =>
    have hest : (n.tagName == "svg" || n.tagName == "symbol") = false := by
      rw [← h, hvp]; rfl
    simp [isPushVp, hest]

theorem cntPopVp_enter (env : Env) (s : VState) (n : XmlNode) :
    List.countP isPopVp (visitEnter env s n).2 = 0 := by
  rw [countP_visitEnter env s n isPopVp rfl rfl (fun _ => rfl)]
  cases (enterTransformB env s.viewportDimStack n).vpPush <;> simp [isPopVp]

theorem cntEst_enter (env : Env) (s : VState) (n : XmlNode) :
    List.countP isEnterEstablish (visitEnter env s n).2 =
      (if n.tagName == "svg" || n.tagName == "symbol" then 1 else 0) := by
  rw [countP_visitEnter env s n isEnterEstablish rfl rfl (fun _ => rfl)]
  cases (enterTransformB env s.viewportDimStack n).vpPush <;>
    by_cases hest : (n.tagName == "svg" || n.tagName == "symbol") = true <;>
    simp_all [isEnterEstablish]

theorem cntPushT_exit (s : VState) (n : XmlNode) :
    List.countP isPushT (visitExit s n).2 = 0 := by
  rw [countP_visitExit]
  simp [isPushT]

theorem cntPopT_exit (s : VState) (n : XmlNode) :
    List.countP isPopT (visitExit s n).2 = 1 := by
  rw [countP_visitExit]
  simp [isPopT]

theorem cntPushName_exit (s : VState) (n : XmlNode) :
    List.countP isPushName (visitExit s n).2 = 0 := by
  rw [countP_visitExit]
  simp [isPushName]

theorem cntPopName_exit (s : VState) (n : XmlNode) :
    List.countP isPopName (visitExit s n).2 = 1 := by
  rw [countP_visitExit]
  simp [isPopName]

theorem cntPushVp_exit (s : VState) (n : XmlNode) :
    List.countP isPushVp (visitExit s n).2 = 0 := by
  rw [countP_visitExit]
  simp [isPushVp]

theorem cntPopVp_exit (s : VState) (n : XmlNode) :
    List.countP isPopVp (visitExit s n).2 =
      (if n.tagName == "svg" || n.tagName == "symbol" then 1 else 0) := by
  rw [countP_visitExit]
  simp [isPopVp]

theorem cntEst_exit (s : VState) (n : XmlNode) :
    List.countP isEnterEstablish (visitExit s n).2 = 0 := by
  rw [countP_visitExit]
  simp [isEnterEstablish]

theorem visitEnterVps_eq (env : Env) (s : VState) (n : XmlNode) :
    visitEnterVps env s n =
      match (enterTransformB env s.viewportDimStack n).vpPush with
      | some v => v :: s.viewportDimStack
      | none => s.viewportDimStack := rfl

theorem visitExit_visitEnter_state (env : Env) (s : VState) (n : XmlNode) :
    (visitExit (visitEnter env s n).1 n).1 = s := by
  have h := enterTransformB_vpPush_isSome env s.viewportDimStack n
  cases hvp : (enterTransformB env s.viewportDimStack n).vpPush with
  | some v =>
    have hest : (n.tagName == "svg" || n.tagName == "symbol") = true := by
      rw [← h, hvp]; rfl
    have hvps : visitEnterVps env s n = v :: s.viewportDimStack := by
      rw [visitEnterVps_eq, hvp]
    simp [visitEnter, visitExit, hvps, hest]
  | none =>
    have hest : (n.tagName == "svg" || n.tagName == "symbol") = false := by
      rw [← h, hvp]; rfl
    have hvps : visitEnterVps env s n = s.viewportDimStack := by
      rw [visitEnterVps_eq, hvp]
    simp [visitEnter, visitExit, hvps, hest]

/-- Core balance invariant: any completed sub-walk restores the visitor state
it started from, and its event trace has matching push/pop counts for all
three stacks, with viewport pushes equal to the number of enters of
establishing elements. -/
theorem runVisit_balance (env : Env) (doc : List XmlNode) :
    ∀ (fuel : Nat) (task : VisitTask) (s s' : VState) (ev : List Event),
      runVisit env doc fuel task s = some (s', ev) →
      s' = s ∧
      List.countP isPushT ev = List.countP isPopT ev ∧
      List.countP isPushName ev = List.countP isPopName ev ∧
      List.countP isPushVp ev = List.countP isPopVp ev ∧
      List.countP isPushVp ev = List.countP isEnterEstablish ev := by
  intro fuel
  induction fuel with
  | zero =>
    intro task s s' ev h
    simp [runVisit] at h
  | succ f ih =>
    intro task s s' ev h
    cases task with
    | one n =>
      rw [runVisit] at h
      by_cases hr : shouldRenderNode n
      · rw [if_pos hr] at h
        cases hin : runVisit env doc f
            (if n.tagName == "use" then
              match resolveUseHref (f + 1) doc n with
              | some m => VisitTask.ref m
              | none => VisitTask.many n.children
            else VisitTask.many n.children) (visitEnter env s n).1 with
        | none => rw [hin] at h; simp at h
        | some p =>
          obtain ⟨s2, e2⟩ := p
          rw [hin] at h
          simp only [Option.some.injEq, Prod.mk.injEq] at h
          obtain ⟨hs', hev⟩ := h
          obtain ⟨hs2, hb1, hb2, hb3, hb4⟩ := ih _ _ _ _ hin
          subst hs2
          constructor
          · rw [← hs', visitExit_visitEnter_state]
          · subst hev
            refine ⟨?_, ?_, ?_, ?_⟩ <;>
              simp only [List.countP_append, cntPushT_enter, cntPopT_enter, cntPushName_enter,
                cntPopName_enter, cntPushVp_enter, cntPopVp_enter, cntEst_enter,
                cntPushT_exit, cntPopT_exit, cntPushName_exit, cntPopName_exit,
                cntPushVp_exit, cntPopVp_exit, cntEst_exit] <;>
              omega
      · rw [if_neg hr] at h
        simp only [Option.some.injEq, Prod.mk.injEq] at h
        obtain ⟨hs', hev⟩ := h
        subst hs' hev
        simp
    | ref n =>
      rw [runVisit] at h
      by_cases hr : (n.isElement && !(isHiddenStyle n)) = true
      · rw [if_pos hr] at h
        cases hin : runVisit env doc f (.many n.children) (visitEnter env s n).1 with
        | none => rw [hin] at h; simp at h
        | some p =>
          obtain ⟨s2, e2⟩ := p
          rw [hin] at h
          simp only [Option.some.injEq, Prod.mk.injEq] at h
          obtain ⟨hs', hev⟩ := h
          obtain ⟨hs2, hb1, hb2, hb3, hb4⟩ := ih _ _ _ _ hin
          subst hs2
          constructor
          · rw [← hs', visitExit_visitEnter_state]
          · subst hev
            refine ⟨?_, ?_, ?_, ?_⟩ <;>
              simp only [List.countP_append, cntPushT_enter, cntPopT_enter, cntPushName_enter,
                cntPopName_enter, cntPushVp_enter, cntPopVp_enter, cntEst_enter,
                cntPushT_exit, cntPopT_exit, cntPushName_exit, cntPopName_exit,
                cntPushVp_exit, cntPopVp_exit, cntEst_exit] <;>
              omega
      · rw [if_neg hr] at h
        simp only [Option.some.injEq, Prod.mk.injEq] at h
        obtain ⟨hs', hev⟩ := h
        subst hs' hev
        simp
    | many ns =>
      cases ns with
      | nil =>
        rw [runVisit] at h
        simp only [Option.some.injEq, Prod.mk.injEq] at h
        obtain ⟨hs', hev⟩ := h
        subst hs' hev
        simp
      | cons n rest =>
        rw [runVisit] at h
        simp only [Option.bind_eq_some] at h
        obtain ⟨⟨s1, e1⟩, hin1, h⟩ := h
        obtain ⟨⟨s2, e2⟩, hin2, h⟩ := h
        simp only [Option.some.injEq, Prod.mk.injEq] at h
        obtain ⟨hs', hev⟩ := h
        obtain ⟨hA, hA1, hA2, hA3, hA4⟩ := ih _ _ _ _ hin1
        obtain ⟨hB, hB1, hB2, hB3, hB4⟩ := ih _ _ _ _ hin2
        subst hev
        refine ⟨by rw [← hs', hB, hA], ?_, ?_, ?_, ?_⟩ <;>
          simp only [List.countP_append] <;> omega

/-! ### A concrete executable environment and documents, for witnesses -/

/-- A small concrete length table standing in for the external unit resolver
in witnesses (the claims' theorems quantify over the resolver). -/
def decodeNum (s : String) : Option ℚ :=
  (([("0", (0 : ℚ)), ("1", 1), ("2", 2), ("5", 5), ("10", 10)]).find?
    (fun kv => kv.1 == s)).map (fun kv => kv.2)

/-- A concrete instantiation of the external collaborators, used only to
exercise the theorems on concrete documents. -/
def simpleEnv : Env :=
  { resolveLen := fun _ n a => (n.attr a).bind decodeNum,
    dimensionsOverride := (none, none),
    parseViewBox := fun _ => ⟨0, 0, 1, 1⟩,
    viewportTransform := fun _ _ _ _ => Transform2D.identity,
    parsePoints := fun s => if s == "0,0 1,0" then [((0 : ℚ), (0 : ℚ)), (1, 0)] else [],
    parsePathSegs := fun _ => [],
    parseTransformList := fun _ => [],
    nodeName := fun n => n.tagName }

/-- `<g><rect width="10" height="10"/></g>` -/
def w1doc : List XmlNode :=
  [.element "g" [] [.element "rect" [("width", "10"), ("height", "10")] []]]

/-- The result of traversing `w1doc` (fuel 10 is ample). -/
def w1res : VState × List Event :=
  (depthFirstVisit simpleEnv w1doc 10).getD (⟨[], [], []⟩, [])

/-- C1: over a full traversal, transform-stack pushes equal pops, name-stack
pushes equal pops, viewport-dimension pushes equal pops, viewport pushes
happen exactly at enters of establishing elements (`svg`/`symbol`), and all
three stacks are empty when the top-level walk returns. -/
theorem c1_stack_balance (env : Env) (doc : List XmlNode) (fuel : Nat) (s' : VState)
    (ev : List Event) (h : depthFirstVisit env doc fuel = some (s', ev)) :
    List.countP isPushT ev = List.countP isPopT ev ∧
    List.countP isPushName ev = List.countP isPopName ev ∧
    List.countP isPushVp ev = List.countP isPopVp ev ∧
    List.countP isPushVp ev = List.countP isEnterEstablish ev ∧
    s'.transformStack = [] ∧ s'.nameStack = [] ∧ s'.viewportDimStack = [] := by
  obtain ⟨hs, h1, h2, h3, h4⟩ := runVisit_balance env doc fuel (.many doc) ⟨[], [], []⟩ s' ev h
  subst hs
  exact ⟨h1, h2, h3, h4, rfl, rfl, rfl⟩

unseal Rat.add Rat.mul Rat.sub in
theorem c1_stack_balance_witness :
    List.countP isPushT w1res.2 = List.countP isPopT w1res.2 ∧
    List.countP isPushName w1res.2 = List.countP isPopName w1res.2 ∧
    List.countP isPushVp w1res.2 = List.countP isPopVp w1res.2 ∧
    List.countP isPushVp w1res.2 = List.countP isEnterEstablish w1res.2 ∧
    w1res.1.transformStack = [] ∧ w1res.1.nameStack = [] ∧
    w1res.1.viewportDimStack = [] :=
  c1_stack_balance simpleEnv w1doc 10 w1res.1 w1res.2 (by decide)

/-- C10: in the root-viewport size derivation, a present (filtered) view box
forces the intrinsic aspect ratio to be defined, so the match arm marked
`unreachable!` (exactly one of width/height known, no intrinsic ratio, view
box present) is never selected for the ratio the source computes. -/
theorem c10_unreachable_arm (vs : Option ℚ × Option ℚ) (vb : Option ViewBox) (b : ViewBox) :
    (aspectRatioOf (some b) vs).isSome = true ∧
    sizingUnreachable vs (aspectRatioOf vb vs) vb = false := by
  constructor
  · obtain ⟨a, c⟩ := vs
    cases a <;> cases c <;> simp [aspectRatioOf]
  · cases vb with
    | none =>
      obtain ⟨a, c⟩ := vs
      cases a <;> cases c <;> simp [sizingUnreachable, aspectRatioOf]
    | some b2 =>
      obtain ⟨a, c⟩ := vs
      cases a <;> cases c <;> simp [sizingUnreachable, aspectRatioOf]

/-- `<svg width="1" height="1"><svg width="1" height="2"/></svg>` — a document
whose root svg contains a nested (non-root) svg element. -/
def c2doc : List XmlNode :=
  [.element "svg" [("width", "1"), ("height", "1")]
    [.element "svg" [("width", "1"), ("height", "2")] []]]

unseal Rat.add Rat.mul Rat.sub in
/-- C2 (counterexample to the claim as stated): in `c2doc` the nested,
non-root svg element also receives the Y-axis flip — the transform pushed for
it is the flip translation `(0, -2)`, not the identity that the flip-free
resolution (`enterTransformNoFlip`) yields for it. -/
theorem c2_flip_counterexample :
    (((depthFirstVisit simpleEnv c2doc 10).getD (⟨[], [], []⟩, [])).2.filter isPushT =
      [Event.pushT (Transform2D.translation 0 (-1)),
       Event.pushT (Transform2D.translation 0 (-2))]) ∧
    (enterTransformB simpleEnv [((1 : ℚ), (1 : ℚ))]
        (XmlNode.element "svg" [("width", "1"), ("height", "2")] [])).t =
      Transform2D.translation 0 (-2) ∧
    enterTransformNoFlip simpleEnv [((1 : ℚ), (1 : ℚ))]
        (XmlNode.element "svg" [("width", "1"), ("height", "2")] []) =
      Transform2D.identity ∧
    Transform2D.translation 0 (-2) ≠ Transform2D.identity :=
  ⟨by decide, by decide, by decide, by decide⟩

/-- C2 (amended): the Y-axis flip — a further translation subtracting
`viewport_height + viewport_y_offset` from the y-coordinate — is applied for
every element whose tag is `svg` (root or nested), and for no element of any
other tag; in particular a symbol-definition element never receives it. -/
theorem c2_flip_amended (env : Env) (vps : List (ℚ × ℚ)) (n : XmlNode) :
    (n.tagName = "svg" →
      ∀ p : ℚ × ℚ,
        ((enterTransformB env vps n).t).transformPoint p =
          (((enterTransformNoFlip env vps n).transformPoint p).1,
           ((enterTransformNoFlip env vps n).transformPoint p).2 -
             ((svgResolvedSize env vps n).2 + ((svgPos env vps n).2).getD 0))) ∧
    (n.tagName ≠ "svg" → (enterTransformB env vps n).t = enterTransformNoFlip env vps n) := by
  constructor
  · intro htag p
    have h : (n.tagName == "svg") = true := by simp [htag]
    simp only [enterTransformB, enterTransformNoFlip, h, if_true]
    rw [andThen_transformPoint]
    simp only [svgFlipOf, Transform2D.translation, Transform2D.transformPoint, Prod.mk.injEq]
    exact ⟨by ring, by ring⟩
  · intro htag
    have h : (n.tagName == "svg") = false := by simp [htag]
    simp only [enterTransformB, enterTransformNoFlip, h, Bool.false_eq_true, if_false]
    split <;> try split
    all_goals rfl

unseal Rat.add Rat.mul Rat.sub in
theorem c2_flip_amended_witness :
    (((enterTransformB simpleEnv []
        (XmlNode.element "svg" [("width", "1"), ("height", "1")] [])).t).transformPoint (0, 0) =
      (((enterTransformNoFlip simpleEnv []
          (XmlNode.element "svg" [("width", "1"), ("height", "1")] [])).transformPoint (0, 0)).1,
       ((enterTransformNoFlip simpleEnv []
          (XmlNode.element "svg" [("width", "1"), ("height", "1")] [])).transformPoint (0, 0)).2 -
         ((svgResolvedSize simpleEnv []
            (XmlNode.element "svg" [("width", "1"), ("height", "1")] [])).2 +
          ((svgPos simpleEnv []
            (XmlNode.element "svg" [("width", "1"), ("height", "1")] [])).2).getD 0))) ∧
    (enterTransformB simpleEnv [] (XmlNode.element "symbol" [] [])).t =
      enterTransformNoFlip simpleEnv [] (XmlNode.element "symbol" [] []) :=
  ⟨(c2_flip_amended simpleEnv [] (XmlNode.element "svg" [("width", "1"), ("height", "1")] [])).1
      rfl (0, 0),
   (c2_flip_amended simpleEnv [] (XmlNode.element "symbol" [] [])).2 (by decide)⟩

/-- Application of a transform list to a point where the *last*-listed
transform is applied to the point first (the head of the list is outermost). -/
def applyTransformList (l : List Transform2D) (p : ℚ × ℚ) : ℚ × ℚ :=
  match l with
  | [] => p
  | t :: rest => t.transformPoint (applyTransformList rest p)

theorem foldl_andThen_apply (l : List Transform2D) (acc : Transform2D) (p : ℚ × ℚ) :
    (l.foldl (fun a t => t.andThen a) acc).transformPoint p =
      acc.transformPoint (applyTransformList l p) := by
  induction l generalizing acc with
  | nil => simp [applyTransformList]
  | cons t rest ih =>
    simp only [List.foldl_cons, applyTransformList]
    rw [ih, andThen_transformPoint]

theorem flattenTransformList_apply (l : List Transform2D) (p : ℚ × ℚ) :
    (flattenTransformList l).transformPoint p = applyTransformList l p := by
  rw [flattenTransformList, foldl_andThen_apply, identity_transformPoint]

/-- An environment whose transform-list parser yields a translation by
`(1, 0)` followed (in list order) by a uniform scaling by 2. -/
def c5env : Env :=
  { simpleEnv with parseTransformList := fun _ => [Transform2D.translation 1 0, ⟨2, 0, 0, 2, 0, 0⟩] }

unseal Rat.add Rat.mul Rat.sub in
/-- C5 (counterexample to the claim as stated): for a node whose transform
list is `translate(1,0) scale(2)`, the flattened own-transform maps `(1,0)` to
`(3,0)` — i.e. the later-listed scaling is applied to the point *first* and
the earlier-listed translation *after* it; the claim's reading ("later-listed
functions apply after earlier-listed ones") would instead give `(4,0)`. -/
theorem c5_transform_fold_counterexample :
    (ownTransform c5env (XmlNode.element "g" [("transform", "t")] [])).transformPoint (1, 0) =
      (3, 0) ∧
    ((⟨2, 0, 0, 2, 0, 0⟩ : Transform2D)).transformPoint
      ((Transform2D.translation 1 0).transformPoint (1, 0)) = (4, 0) ∧
    ((3 : ℚ), (0 : ℚ)) ≠ ((4 : ℚ), (0 : ℚ)) :=
  ⟨by decide, by decide, by decide⟩

/-- C5 (amended): the flattened own-transform is the fold
`acc = t.then(acc)` starting from the identity, and consequently the composed
map applies the *later*-listed transforms to the point first: the flattened
transform of `l` acts as `applyTransformList l`, and a split `l₁ ++ l₂` acts
as `l₂` first, then `l₁` (earlier-listed entries compose on the outside). -/
theorem c5_transform_fold_amended (env : Env) (n : XmlNode) (str : String)
    (hattr : n.attr "transform" = some str) :
    (∀ p, (ownTransform env n).transformPoint p =
        applyTransformList (env.parseTransformList str) p) ∧
    (∀ (l1 l2 : List Transform2D) p,
      applyTransformList (l1 ++ l2) p = applyTransformList l1 (applyTransformList l2 p)) := by
  constructor
  · intro p
    unfold ownTransform
    rw [hattr]
    exact flattenTransformList_apply _ p
  · intro l1 l2 p
    induction l1 with
    | nil => simp [applyTransformList]
    | cons t rest ih => simp [applyTransformList, ih]

unseal Rat.add Rat.mul Rat.sub in
theorem c5_transform_fold_amended_witness :
    (ownTransform c5env (XmlNode.element "g" [("transform", "t")] [])).transformPoint (1, 0) =
      applyTransformList (c5env.parseTransformList "t") (1, 0) :=
  (c5_transform_fold_amended c5env (XmlNode.element "g" [("transform", "t")] []) "t"
    (by decide)).1 (1, 0)

/-- `<rect width="10" height="10" rx="2"/>` — only one corner radius given. -/
def c4node : XmlNode := .element "rect" [("width", "10"), ("height", "10"), ("rx", "2")] []

unseal Rat.add Rat.mul Rat.sub in
/-- C4 (counterexample to the claim as stated): a rect with `rx=2` and `ry`
left at its 0 default emits 6 arc-free segments, but they retain the `rx`
offsets (move `(2,0)`, H to 8, …) instead of the claimed sharp-rectangle
sequence move `(0,0)`, H to 10, V to 10, H to 0, V to 0, close. -/
theorem c4_rect_counterexample :
    shapeLower simpleEnv [] c4node =
      [Event.draw
        [PathSegment.moveTo true 2 0, PathSegment.horizontalLineTo true 8,
         PathSegment.verticalLineTo true 10, PathSegment.horizontalLineTo true 2,
         PathSegment.verticalLineTo true 0, PathSegment.closePath true]] ∧
    ([PathSegment.moveTo true 2 0, PathSegment.horizontalLineTo true 8,
      PathSegment.verticalLineTo true 10, PathSegment.horizontalLineTo true 2,
      PathSegment.verticalLineTo true 0, PathSegment.closePath true] : List PathSegment) ≠
      [PathSegment.moveTo true 0 0, PathSegment.horizontalLineTo true 10,
       PathSegment.verticalLineTo true 10, PathSegment.horizontalLineTo true 0,
       PathSegment.verticalLineTo true 0, PathSegment.closePath true] :=
  ⟨by decide, by decide⟩

/-- C4 (amended): a rect with resolvable width/height emits exactly one
complete sequence `rectSegs`; with both radii strictly positive it is the full
10-segment rounded outline (move, 4 lines, 4 arcs, close, clockwise from
`(x+rx, y)`); otherwise it is exactly the 6 arc-free segments — but with the
`rx`/`ry` offsets retained in the endpoints: move `(x+rx, y)`, H to
`x+width−rx`, V to `y+height−ry`, H to `x+rx`, V to `y+ry`, close — which
coincides with the claimed sharp rectangle exactly when `rx = ry = 0` (e.g.
when neither radius is given). -/
theorem c4_rect_amended (env : Env) (vps : List (ℚ × ℚ)) (n : XmlNode) (w h : ℚ)
    (htag : n.tagName = "rect")
    (hw : env.resolveLen vps n "width" = some w)
    (hh : env.resolveLen vps n "height" = some h) :
    shapeLower env vps n =
      [Event.draw
        (rectSegs ((env.resolveLen vps n "x").getD 0) ((env.resolveLen vps n "y").getD 0) w h
          ((env.resolveLen vps n "rx").getD 0) ((env.resolveLen vps n "ry").getD 0))] ∧
    (∀ x y rx ry : ℚ, 0 < rx → 0 < ry →
      rectSegs x y w h rx ry = rectSegsFull x y w h rx ry) ∧
    (∀ x y rx ry : ℚ, ¬(0 < rx ∧ 0 < ry) →
      rectSegs x y w h rx ry =
        [PathSegment.moveTo true (x + rx) y,
         PathSegment.horizontalLineTo true (x + w - rx),
         PathSegment.verticalLineTo true (y + h - ry),
         PathSegment.horizontalLineTo true (x + rx),
         PathSegment.verticalLineTo true (y + ry),
         PathSegment.closePath true]) ∧
    (∀ x y : ℚ,
      rectSegs x y w h 0 0 =
        [PathSegment.moveTo true x y,
         PathSegment.horizontalLineTo true (x + w),
         PathSegment.verticalLineTo true (y + h),
         PathSegment.horizontalLineTo true x,
         PathSegment.verticalLineTo true y,
         PathSegment.closePath true]) := by
  refine ⟨by simp [shapeLower, htag, hw, hh], ?_, ?_, ?_⟩
  · intro x y rx ry hrx hry
    simp [rectSegs, hrx, hry]
  · intro x y rx ry hnot
    have hfalse : (decide (0 < rx) && decide (0 < ry)) = false := by
      rcases not_and_or.mp hnot with hx | hy
      · simp [decide_eq_false hx]
      · simp [decide_eq_false hy]
    simp [rectSegs, hfalse, rectSegsFull, isArcSeg]
  · intro x y
    have hz : ¬ (0 : ℚ) < 0 := lt_irrefl 0
    simp [rectSegs, decide_eq_false hz, rectSegsFull, isArcSeg]

unseal Rat.add Rat.mul Rat.sub in
theorem c4_rect_amended_witness :
    shapeLower simpleEnv [] c4node =
      [Event.draw
        (rectSegs ((simpleEnv.resolveLen [] c4node "x").getD 0)
          ((simpleEnv.resolveLen [] c4node "y").getD 0) 10 10
          ((simpleEnv.resolveLen [] c4node "rx").getD 0)
          ((simpleEnv.resolveLen [] c4node "ry").getD 0))] ∧
    rectSegs 0 0 10 10 2 0 =
      [PathSegment.moveTo true (0 + 2) 0,
       PathSegment.horizontalLineTo true (0 + 10 - 2),
       PathSegment.verticalLineTo true (0 + 10 - 0),
       PathSegment.horizontalLineTo true (0 + 2),
       PathSegment.verticalLineTo true (0 + 0),
       PathSegment.closePath true] :=
  ⟨(c4_rect_amended simpleEnv [] c4node 10 10 rfl (by decide) (by decide)).1,
   (c4_rect_amended simpleEnv [] c4node 10 10 rfl (by decide) (by decide)).2.2.1 0 0 2 0
     (by simp)⟩

/-- `<circle r="5" cx="5"/>` -/
def c7node : XmlNode := .element "circle" [("r", "5"), ("cx", "5")] []

/-- `<ellipse rx="5"/>` — `ry` falls back to the absent radius, i.e. 0. -/
def c7badNode : XmlNode := .element "ellipse" [("rx", "5")] []

/-- C7: for a circle/ellipse element, when both effective radii (each falling
back to the `r` attribute, then to 0) are strictly positive, exactly one
complete sequence is emitted: move to `(cx+rx, cy)`, four absolute arcs
through `(cx, cy+ry)`, `(cx−rx, cy)`, `(cx, cy−ry)` and back to `(cx+rx,
cy)`, then a close (`circleSegs`); otherwise a diagnostic is emitted and no
geometry. -/
theorem c7_ellipse_outline (env : Env) (vps : List (ℚ × ℚ)) (n : XmlNode)
    (htag : n.tagName = "circle" ∨ n.tagName = "ellipse") :
    (0 < (env.resolveLen vps n "rx").getD ((env.resolveLen vps n "r").getD 0) →
     0 < (env.resolveLen vps n "ry").getD ((env.resolveLen vps n "r").getD 0) →
      shapeLower env vps n =
        [Event.draw
          (circleSegs ((env.resolveLen vps n "cx").getD 0) ((env.resolveLen vps n "cy").getD 0)
            ((env.resolveLen vps n "rx").getD ((env.resolveLen vps n "r").getD 0))
            ((env.resolveLen vps n "ry").getD ((env.resolveLen vps n "r").getD 0)))]) ∧
    (¬(0 < (env.resolveLen vps n "rx").getD ((env.resolveLen vps n "r").getD 0) ∧
        0 < (env.resolveLen vps n "ry").getD ((env.resolveLen vps n "r").getD 0)) →
      shapeLower env vps n = [Event.warn]) := by
  have hset : shapeLower env vps n =
      (if 0 < (env.resolveLen vps n "rx").getD ((env.resolveLen vps n "r").getD 0) ∧
          0 < (env.resolveLen vps n "ry").getD ((env.resolveLen vps n "r").getD 0) then
        [Event.draw
          (circleSegs ((env.resolveLen vps n "cx").getD 0) ((env.resolveLen vps n "cy").getD 0)
            ((env.resolveLen vps n "rx").getD ((env.resolveLen vps n "r").getD 0))
            ((env.resolveLen vps n "ry").getD ((env.resolveLen vps n "r").getD 0)))]
      else [Event.warn]) := by
    rcases htag with h | h <;> simp [shapeLower, h]
  constructor
  · intro h1 h2
    rw [hset, if_pos ⟨h1, h2⟩]
  · intro hnot
    rw [hset, if_neg hnot]

unseal Rat.add Rat.mul Rat.sub in
theorem c7_ellipse_outline_witness :
    shapeLower simpleEnv [] c7node =
      [Event.draw
        (circleSegs ((simpleEnv.resolveLen [] c7node "cx").getD 0)
          ((simpleEnv.resolveLen [] c7node "cy").getD 0)
          ((simpleEnv.resolveLen [] c7node "rx").getD
            ((simpleEnv.resolveLen [] c7node "r").getD 0))
          ((simpleEnv.resolveLen [] c7node "ry").getD
            ((simpleEnv.resolveLen [] c7node "r").getD 0)))] ∧
    shapeLower simpleEnv [] c7badNode = [Event.warn] :=
  ⟨(c7_ellipse_outline simpleEnv [] c7node (Or.inl rfl)).1 (by decide) (by decide),
   (c7_ellipse_outline simpleEnv [] c7badNode (Or.inr rfl)).2 (by decide)⟩

/-- `<polyline points="0,0 1,0"/>` -/
def c8node : XmlNode := .element "polyline" [("points", "0,0 1,0")] []

unseal Rat.add Rat.mul Rat.sub in
/-- C8 (counterexample to the claim as stated): a polyline with points
`(0,0) (1,0)` emits move `(0,0)`, line `(0,0)`, line `(1,0)` — the points
iterator is peeked, not consumed, so the first point receives a degenerate
line segment too; this differs from the spec's "move to first point, line to
each subsequent point" sequence, so what appears is neither that full
sequence nor nothing. -/
theorem c8_all_or_nothing_counterexample :
    shapeLower simpleEnv [] c8node =
      [Event.draw
        [PathSegment.moveTo true 0 0, PathSegment.lineTo true 0 0,
         PathSegment.lineTo true 1 0]] ∧
    specPolylineSegs false [((0 : ℚ), (0 : ℚ)), (1, 0)] =
      [PathSegment.moveTo true 0 0, PathSegment.lineTo true 1 0] ∧
    ([PathSegment.moveTo true 0 0, PathSegment.lineTo true 0 0,
      PathSegment.lineTo true 1 0] : List PathSegment) ≠
      [PathSegment.moveTo true 0 0, PathSegment.lineTo true 1 0] :=
  ⟨by decide, by decide, by decide⟩

/-- C8 (amended): shape lowering is all-or-nothing — at most one segment
sequence is ever handed to the sink per element; for polyline/polygon with a
`points` attribute exactly the one complete sequence `polySegs` is emitted,
which for an empty point list is the spec's sequence (just a close for
polygon, nothing for polyline) and for a nonempty list is the spec's
move-to-first/line-to-subsequent[/close] sequence with one extra degenerate
line to the first point inserted directly after the move. -/
theorem c8_all_or_nothing_amended (env : Env) (vps : List (ℚ × ℚ)) (n : XmlNode) :
    (List.countP isDrawE (shapeLower env vps n) ≤ 1) ∧
    (∀ str, (n.tagName = "polyline" ∨ n.tagName = "polygon") → n.attr "points" = some str →
      shapeLower env vps n =
        [Event.draw (polySegs (n.tagName == "polygon") (env.parsePoints str))]) ∧
    (∀ b : Bool, polySegs b [] = specPolylineSegs b []) ∧
    (∀ (b : Bool) (p : ℚ × ℚ) (rest : List (ℚ × ℚ)),
      polySegs b (p :: rest) =
        (specPolylineSegs b (p :: rest)).take 1 ++
          PathSegment.lineTo true p.1 p.2 :: (specPolylineSegs b (p :: rest)).drop 1) := by
  refine ⟨?_, ?_, ?_, ?_⟩
  · unfold shapeLower
    repeat' split
    all_goals simp [isDrawE]
  · intro str htag hattr
    rcases htag with h | h <;> simp [shapeLower, h, hattr]
  · intro b
    cases b <;> simp [polySegs, specPolylineSegs]
  · intro b p rest
    cases b <;> simp [polySegs, specPolylineSegs]

unseal Rat.add Rat.mul Rat.sub in
theorem c8_all_or_nothing_amended_witness :
    shapeLower simpleEnv [] c8node =
      [Event.draw (polySegs (c8node.tagName == "polygon") (simpleEnv.parsePoints "0,0 1,0"))] ∧
    polySegs true [((0 : ℚ), (0 : ℚ)), (1, 0)] =
      (specPolylineSegs true [((0 : ℚ), (0 : ℚ)), (1, 0)]).take 1 ++
        PathSegment.lineTo true 0 0 :: (specPolylineSegs true [((0 : ℚ), (0 : ℚ)), (1, 0)]).drop 1 :=
  ⟨(c8_all_or_nothing_amended simpleEnv [] c8node).2.1 "0,0 1,0" (Or.inl rfl) (by decide),
   (c8_all_or_nothing_amended simpleEnv [] c8node).2.2.2 true (0, 0) [(1, 0)]⟩

/-- C6: a node failing the visibility filter (non-element, hidden style, or a
`defs`/`marker`/`symbol` container) is skipped by the strict walk with its
entire subtree — zero events (no enter/exit, no geometry) and an unchanged
state; by contrast the relaxed walk used for referenced nodes does enter an
element that is merely a non-rendered container, which is how such elements
render only when reached through a reference. -/
theorem c6_visibility_filter (env : Env) (doc : List XmlNode) (f : Nat) (s : VState)
    (n : XmlNode) :
    (shouldRenderNode n = false → runVisit env doc (f + 1) (.one n) s = some (s, [])) ∧
    (∀ s' ev, n.isElement = true → isHiddenStyle n = false →
      runVisit env doc (f + 1) (.ref n) s = some (s', ev) →
      ∃ tl, ev = Event.enter n.tagName :: tl) := by
  constructor
  · intro h
    rw [runVisit]
    simp [h]
  · intro s' ev hel hhid hrun
    rw [runVisit] at hrun
    have hc : (n.isElement && !(isHiddenStyle n)) = true := by simp [hel, hhid]
    rw [if_pos hc] at hrun
    cases hin : runVisit env doc f (.many n.children) (visitEnter env s n).1 with
    | none => rw [hin] at hrun; simp at hrun
    | some p =>
      obtain ⟨s2, e2⟩ := p
      rw [hin] at hrun
      simp only [Option.some.injEq, Prod.mk.injEq] at hrun
      obtain ⟨-, hev⟩ := hrun
      exact ⟨_, hev.symm⟩

/-- `<g style="display:none"/>` -/
def c6hidden : XmlNode := .element "g" [("style", "display:none")] []

/-- `<symbol/>` -/
def c6sym : XmlNode := .element "symbol" [] []

/-- The relaxed walk applied to the bare symbol. -/
def c6refRes : VState × List Event :=
  (runVisit simpleEnv [] 5 (.ref c6sym) ⟨[], [], []⟩).getD (⟨[], [], []⟩, [])

unseal Rat.add Rat.mul Rat.sub in
theorem c6_visibility_filter_witness :
    runVisit simpleEnv [] 5 (.one c6hidden) ⟨[], [], []⟩ = some (⟨[], [], []⟩, []) ∧
    (∃ tl, c6refRes.2 = Event.enter "symbol" :: tl) :=
  ⟨(c6_visibility_filter simpleEnv [] 4 ⟨[], [], []⟩ c6hidden).1 (by decide),
   (c6_visibility_filter simpleEnv [] 4 ⟨[], [], []⟩ c6sym).2 c6refRes.1 c6refRes.2 rfl rfl
     (by decide)⟩

/-- `<use href="#missing"><rect width="10" height="10"/></use>` — an
unresolved reference element that has a literal child. -/
def c3doc : List XmlNode :=
  [.element "use" [("href", "#missing")]
    [.element "rect" [("width", "10"), ("height", "10")] []]]

unseal Rat.add Rat.mul Rat.sub in
/-- C3 (counterexample to the claim as stated): an unresolved `use` *does*
descend — into its literal children.  In `c3doc` the traversal enters the
rect child of the unresolved reference and emits its geometry (one draw), so
"no geometry … and does not descend further below it" fails; the traversal
still completes without a fatal error. -/
theorem c3_unresolved_use_counterexample :
    (((depthFirstVisit simpleEnv c3doc 10).getD (⟨[], [], []⟩, [])).2).countP isDrawE = 1 ∧
    Event.enter "rect" ∈ ((depthFirstVisit simpleEnv c3doc 10).getD (⟨[], [], []⟩, [])).2 ∧
    (depthFirstVisit simpleEnv c3doc 10).isSome = true :=
  ⟨by decide, by decide, by decide⟩

/-- C3 (amended): for a rendered `use` element whose reference does not
resolve, the walk emits the element's own enter events (which contain no
geometry — the use arm draws nothing), then walks exactly the element's
*literal children* with the strict walker, then exits; no fatal error is
raised.  (For the common childless reference element this means zero
descent.) -/
theorem c3_unresolved_use_amended (env : Env) (doc : List XmlNode) (f : Nat) (s : VState)
    (n : XmlNode) (s2 : VState) (e2 : List Event)
    (htag : n.tagName = "use")
    (hres : (resolveUseHref (f + 1) doc n).isNone = true)
    (hrender : shouldRenderNode n = true)
    (hinner : runVisit env doc f (.many n.children) (visitEnter env s n).1 = some (s2, e2)) :
    runVisit env doc (f + 1) (.one n) s =
      some ((visitExit s2 n).1,
        (visitEnter env s n).2 ++ e2 ++ (visitExit s2 n).2) ∧
    List.countP isDrawE (visitEnter env s n).2 = 0 := by
  constructor
  · rw [runVisit, if_pos hrender]
    have h1 : (n.tagName == "use") = true := by simp [htag]
    rw [if_pos h1, Option.isNone_iff_eq_none.mp hres]
    simp only [hinner]
  · have hsh : shapeLower env (visitEnterVps env s n) n = [] := by
      simp [shapeLower, htag]
    have hvp : (enterTransformB env s.viewportDimStack n).vpPush = none := by
      rw [enterTransformB_vpPush]
      simp [htag]
    have hevs := countP_all_warn isDrawE rfl _ (enterTransformB_evs env s.viewportDimStack n)
    simp [visitEnter, hvp, hsh, hevs, List.countP_cons, List.countP_append, isDrawE,
      apply_ite (List.countP isDrawE)]

/-- `<use href="#missing"/>` — childless unresolved reference. -/
def c3node : XmlNode := .element "use" [("href", "#missing")] []

unseal Rat.add Rat.mul Rat.sub in
theorem c3_unresolved_use_amended_witness :
    (runVisit simpleEnv [] 5 (.one c3node) ⟨[], [], []⟩ =
      some ((visitExit (visitEnter simpleEnv ⟨[], [], []⟩ c3node).1 c3node).1,
        (visitEnter simpleEnv ⟨[], [], []⟩ c3node).2 ++ [] ++
          (visitExit (visitEnter simpleEnv ⟨[], [], []⟩ c3node).1 c3node).2)) ∧
    List.countP isDrawE (visitEnter simpleEnv ⟨[], [], []⟩ c3node).2 = 0 :=
  have h := c3_unresolved_use_amended simpleEnv [] 4 ⟨[], [], []⟩ c3node
    (visitEnter simpleEnv ⟨[], [], []⟩ c3node).1 [] rfl (by decide) (by decide) (by decide)
  ⟨h.1, h.2⟩

/-- C9 (amended): a symbol's own viewport size is its explicit width/height
when both are present; else the view box's extents when a box exists; else
the current top of the viewport-dimension stack when that stack is non-empty
— and the `(1,1)` degenerate default exactly when the stack is empty. -/
theorem c9_symbol_viewport_amended (env : Env) (vps : List (ℚ × ℚ)) (n : XmlNode) :
    (∀ w h, env.resolveLen vps n "width" = some w → env.resolveLen vps n "height" = some h →
      symbolViewportOf env vps n = (w, h)) ∧
    (∀ b, (env.resolveLen vps n "width" = none ∨ env.resolveLen vps n "height" = none) →
      (viewBoxOf env n).1 = some b → symbolViewportOf env vps n = (b.w, b.h)) ∧
    ((env.resolveLen vps n "width" = none ∨ env.resolveLen vps n "height" = none) →
      (viewBoxOf env n).1 = none →
      ((∀ top rest, vps = top :: rest → symbolViewportOf env vps n = top) ∧
       (vps = [] → symbolViewportOf env vps n = (1, 1)))) := by
  refine ⟨?_, ?_, ?_⟩
  · intro w h hw hh
    simp [symbolViewportOf, hw, hh]
  · intro b hwh hvb
    rcases hwh with hw | hh
    · simp [symbolViewportOf, hw, hvb]
    · cases hx : env.resolveLen vps n "width" <;> simp [symbolViewportOf, hx, hh, hvb]
  · intro hwh hvb
    constructor
    · intro top rest hvps
      subst hvps
      rcases hwh with hw | hh
      · simp [symbolViewportOf, hw, hvb]
      · cases hx : env.resolveLen (top :: rest) n "width" <;>
          simp [symbolViewportOf, hx, hh, hvb]
    · intro hvps
      subst hvps
      rcases hwh with hw | hh
      · simp [symbolViewportOf, hw, hvb]
      · cases hx : env.resolveLen [] n "width" <;> simp [symbolViewportOf, hx, hh, hvb]

/-- `<use href="#s"><symbol id="s"/></use>` — the symbol is reached through
the reference while the viewport-dimension stack is still empty. -/
def c9doc : List XmlNode :=
  [.element "use" [("href", "#s")] [.element "symbol" [("id", "s")] []]]

unseal Rat.add Rat.mul Rat.sub in
/-- C9 (counterexample to the claim as stated): in `c9doc` the symbol acts as
the establishing element with no explicit size, no box, and an *empty*
viewport-dimension stack; the pushed viewport size is the `(1,1)` degenerate
default, which the claim says can never happen. -/
theorem c9_symbol_viewport_counterexample :
    (((depthFirstVisit simpleEnv c9doc 10).getD (⟨[], [], []⟩, [])).2).filter isPushVp =
      [Event.pushVp (1, 1)] ∧
    symbolViewportOf simpleEnv [] (XmlNode.element "symbol" [("id", "s")] []) = (1, 1) :=
  ⟨by decide, by decide⟩

theorem c9_symbol_viewport_amended_witness :
    symbolViewportOf simpleEnv [] (XmlNode.element "symbol" [] []) = (1, 1) ∧
    symbolViewportOf simpleEnv [((5 : ℚ), (2 : ℚ))] (XmlNode.element "symbol" [] []) = (5, 2) :=
  ⟨((c9_symbol_viewport_amended simpleEnv [] (XmlNode.element "symbol" [] [])).2.2
      (Or.inl (by decide)) (by decide)).2 rfl,
   ((c9_symbol_viewport_amended simpleEnv [((5 : ℚ), (2 : ℚ))]
        (XmlNode.element "symbol" [] [])).2.2
      (Or.inl (by decide)) (by decide)).1 (5, 2) [] rfl⟩

end SvgVisit
